import Mathlib

/-!
Shallow embedding of the Sidenotes core (local persistence, serialization
codec, validation/reconciliation engine, and notepad state reducer) together
with proofs about the properties its specification states.

Untrusted import/restore payloads and runtime note objects are modelled as a
JavaScript value type `JSVal`; in-memory reducer documents are modelled as the
typed `Notepad`/`Note` structures of the data model.
-/

/-- A binary blob as held in memory by the app: a MIME type and its bytes
(each byte a natural number below 256). -/
structure JSBlob where
  type : String
  bytes : List Nat
deriving DecidableEq, Repr

/-- A JavaScript runtime value, as far as the core needs it: `undefined`,
`null`, booleans, numbers, strings, arrays, plain objects (ordered field
lists), and binary blobs. -/
inductive JSVal where
  | undefined
  | null
  | bool (b : Bool)
  | num (n : Int)
  | str (s : String)
  | arr (elems : List JSVal)
  | obj (fields : List (String × JSVal))
  | blob (b : JSBlob)

/-- Own enumerable fields contributed by spreading a value (`{...v}`): the
field list for plain objects, nothing for other values (index properties of
strings are not modelled; the core only spreads objects). -/
def jsObjFields : JSVal → List (String × JSVal)
  | .obj fields => fields
  | _ => []

/-- JavaScript property read `v.k` (and the optional-chaining read `v?.k`):
the first binding of `k` among the value's own fields, `undefined` when the
field is absent or the value is not an object. -/
def jsGetField (v : JSVal) (k : String) : JSVal :=
  (List.lookup k (jsObjFields v)).getD .undefined

/-- Replace the first binding of `k` (keeping its position), or append the
binding when `k` is absent — the field order produced by `{...o, k: x}`. -/
def setInFields (k : String) (x : JSVal) : List (String × JSVal) → List (String × JSVal)
  | [] => [(k, x)]
  | (k', v') :: rest => if k' = k then (k, x) :: rest else (k', v') :: setInFields k x rest

/-- The object-literal update `{...v, k: x}`. -/
def jsSetField (v : JSVal) (k : String) (x : JSVal) : JSVal :=
  .obj (setInFields k x (jsObjFields v))

/-- JavaScript truthiness: `undefined`, `null`, `false`, `0` and the empty
string are falsy; arrays, objects and blobs (even empty ones) are truthy. -/
def jsTruthy : JSVal → Bool
  | .undefined => false
  | .null => false
  | .bool b => b
  | .num n => n != 0
  | .str s => s != ""
  | .arr _ => true
  | .obj _ => true
  | .blob _ => true

/-- The `Array.isArray` test. -/
def jsIsArray : JSVal → Bool
  | .arr _ => true
  | _ => false

/-- Whether `typeof v === 'object'` holds (`null`, arrays, plain objects and
blobs all have typeof `object`). -/
def jsTypeofIsObject : JSVal → Bool
  | .null => true
  | .arr _ => true
  | .obj _ => true
  | .blob _ => true
  | _ => false

/-- Whether `typeof v === 'string'` holds. -/
def jsIsString : JSVal → Bool
  | .str _ => true
  | _ => false

/-- The `Object.keys`/`Object.entries` enumeration: fields of a plain object
in insertion order, index/element pairs of an array, nothing for other
values. -/
def jsEntries : JSVal → List (String × JSVal)
  | .obj fields => fields
  | .arr elems => elems.enum.map (fun p => (toString p.1, p.2))
  | _ => []

/-- The `Object.values` enumeration. -/
def jsValues (v : JSVal) : List JSVal :=
  (jsEntries v).map Prod.snd

/-- Coercion of a value to a property key, as in the computed key of
`{ [target.id]: target }` (object-valued keys are not modelled; the app's
ids are strings). -/
def jsKeyOf : JSVal → String
  | .str s => s
  | .num n => toString n
  | .bool b => toString b
  | .null => "null"
  | .undefined => "undefined"
  | _ => ""

/-- Elements of an array value, nothing for non-arrays. -/
def jsArrElems : JSVal → List JSVal
  | .arr elems => elems
  | _ => []

/-- The standard Base64 alphabet, as used by `FileReader.readAsDataURL` and
by `fetch` on a base64 data URL. -/
def b64Alphabet : List Char :=
  [ 'A','B','C','D','E','F','G','H','I','J','K','L','M','N','O','P','Q','R','S','T','U','V','W','X','Y','Z',
    'a','b','c','d','e','f','g','h','i','j','k','l','m','n','o','p','q','r','s','t','u','v','w','x','y','z',
    '0','1','2','3','4','5','6','7','8','9','+','/' ]

/-- The Base64 digit for a 6-bit value. -/
def b64Char (n : Nat) : Char :=
  b64Alphabet.getD n 'A'

/-- The 6-bit value of a Base64 digit, `none` for characters outside the
alphabet (including the padding character). -/
def b64Index (c : Char) : Option Nat :=
  b64Alphabet.findIdx? (fun c' => c' = c)

/-- Base64 encoding of a byte list, three bytes at a time with trailing
padding — the payload produced by `FileReader.readAsDataURL`. -/
def base64EncodeChunks : List Nat → List Char
  | [] => []
  | [b1] => [b64Char (b1 / 4), b64Char (b1 % 4 * 16), '=', '=']
  | [b1, b2] => [b64Char (b1 / 4), b64Char (b1 % 4 * 16 + b2 / 16), b64Char (b2 % 16 * 4), '=']
  | b1 :: b2 :: b3 :: rest =>
      b64Char (b1 / 4) :: b64Char (b1 % 4 * 16 + b2 / 16) ::
      b64Char (b2 % 16 * 4 + b3 / 64) :: b64Char (b3 % 64) :: base64EncodeChunks rest

/-- Base64 decoding, four characters at a time with the padded final chunk
rules; `none` on any malformed input (bad length, stray characters, padding
before the end) — the decoder applied by `fetch` to a base64 data URL. -/
def base64DecodeChunks : List Char → Option (List Nat)
  | [] => some []
  | c1 :: c2 :: c3 :: c4 :: rest =>
      match b64Index c1, b64Index c2 with
      | some v1, some v2 =>
          if c3 = '=' then
            if c4 = '=' ∧ rest = [] then some [v1 * 4 + v2 / 16] else none
          else
            match b64Index c3 with
            | some v3 =>
                if c4 = '=' then
                  if rest = [] then some [v1 * 4 + v2 / 16, v2 % 16 * 16 + v3 / 4] else none
                else
                  match b64Index c4, base64DecodeChunks rest with
                  | some v4, some tail =>
                      some ((v1 * 4 + v2 / 16) :: (v2 % 16 * 16 + v3 / 4) :: (v3 % 4 * 64 + v4) :: tail)
                  | _, _ => none
            | none => none
      | _, _ => none
  | _ => none

/-- Split a character list at its first comma, `none` when no comma occurs. -/
def splitAtComma : List Char → Option (List Char × List Char)
  | [] => none
  | c :: rest =>
      if c = ',' then some ([], rest)
      else
        match splitAtComma rest with
        | some (pre, post) => some (c :: pre, post)
        | none => none

/-- The data URL produced by `FileReader.readAsDataURL` for a blob:
`data:<mime>;base64,<payload>`. -/
def blobToDataURL (b : JSBlob) : String :=
  "data:" ++ b.type ++ ";base64," ++ String.mk (base64EncodeChunks b.bytes)

/-- The blob obtained by `fetch`ing a base64 data URL: strip the `data:`
scheme, split header from payload at the first comma, require a `;base64`
header suffix and decode the payload; `none` on any malformed input
(percent-encoded data URLs are not modelled — the codec only produces
base64 ones). -/
def dataURLToBlob (s : String) : Option JSBlob :=
  let cs := s.toList
  if List.isPrefixOf "data:".toList cs then
    match splitAtComma (cs.drop 5) with
    | some (header, payload) =>
        if List.isSuffixOf ";base64".toList header then
          match base64DecodeChunks payload with
          | some bytes => some ⟨String.mk (header.take (header.length - 7)), bytes⟩
          | none => none
        else none
    | none => none
  else none

/-- Model of `blobToBase64` (src utils): resolves `null` for a non-Blob
argument, otherwise the `readAsDataURL` data URL of the blob. -/
def blobToBase64 : JSVal → JSVal
  | .blob b => .str (blobToDataURL b)
  | _ => .null

/-- Model of `base64ToBlob` (src utils): `null` for a falsy or non-string
argument, `null` for a string that is not a data URL, and `null` when the
fetch of the data URL fails; otherwise the decoded blob. -/
def base64ToBlob : JSVal → JSVal
  | .str s =>
      if s = "" then .null
      else if ¬ List.isPrefixOf "data:".toList s.toList then .null
      else
        match dataURLToBlob s with
        | some b => .blob b
        | none => .null
  | _ => .null

/-- Model of the per-note body of `serializeNotes`: when
`note.attachment?.blob` is a Blob, return `{...note, attachment:
{...note.attachment, blob: enc(blob)}}`; otherwise the note unchanged. -/
def serializeNote (enc : JSVal → JSVal) (note : JSVal) : JSVal :=
  match jsGetField (jsGetField note "attachment") "blob" with
  | .blob b =>
      jsSetField note "attachment"
        (jsSetField (jsGetField note "attachment") "blob" (enc (.blob b)))
  | _ => note

/-- Model of `serializeNotes` (src utils): `[]` for a non-array argument,
otherwise the per-note serialization mapped over the array. -/
def serializeNotes (enc : JSVal → JSVal) (notes : JSVal) : JSVal :=
  match notes with
  | .arr elems => .arr (elems.map (serializeNote enc))
  | _ => .arr []

/-- Model of the per-note body of `hydrateNotes`: when
`note.attachment?.blob` is a string, return `{...note, attachment:
{...note.attachment, blob: dec(blob)}}`; otherwise the note unchanged. -/
def hydrateNote (dec : JSVal → JSVal) (note : JSVal) : JSVal :=
  match jsGetField (jsGetField note "attachment") "blob" with
  | .str s =>
      jsSetField note "attachment"
        (jsSetField (jsGetField note "attachment") "blob" (dec (.str s)))
  | _ => note

/-- Model of `hydrateNotes` (src utils): `[]` for a non-array argument,
otherwise the per-note hydration mapped over the array. -/
def hydrateNotes (dec : JSVal → JSVal) (notes : JSVal) : JSVal :=
  match notes with
  | .arr elems => .arr (elems.map (hydrateNote dec))
  | _ => .arr []

/-- Model of the per-note body of `dataFallbackMode`'s `processedNotes`:
copy the note, decode a truthy string attachment blob in place, then build a
fresh object with exactly the five note fields, backfilling falsy ones
(`gen` is the id `generateID('note')` would mint for this note). -/
def processNote (gen : String) (note : JSVal) : JSVal :=
  let att := jsGetField note "attachment"
  let blobVal := jsGetField att "blob"
  let att' :=
    if jsTruthy blobVal ∧ jsIsString blobVal then jsSetField att "blob" (base64ToBlob blobVal)
    else att
  .obj
    [ ("id", if jsTruthy (jsGetField note "id") then jsGetField note "id" else .str gen),
      ("title", if jsTruthy (jsGetField note "title") then jsGetField note "title" else .str ""),
      ("content", if jsTruthy (jsGetField note "content") then jsGetField note "content" else .str ""),
      ("accentColor", if jsTruthy (jsGetField note "accentColor") then jsGetField note "accentColor" else .str ""),
      ("attachment", if jsTruthy att' then att' else .null) ]

/-- Model of the validated entry `dataFallbackMode` builds for a candidate
notepad that passed the safeguard: the five notepad fields with falsy
`title`/`created`/`lastUpdate` backfilled and the notes processed
one by one (`now` is `Date.now()`, `gen i` the id minted for note `i`). -/
def processNotepad (now : Int) (gen : Nat → String) (np : JSVal) : JSVal :=
  .obj
    [ ("id", jsGetField np "id"),
      ("title", if jsTruthy (jsGetField np "title") then jsGetField np "title" else .str "Untitled Notepad"),
      ("created", if jsTruthy (jsGetField np "created") then jsGetField np "created" else .num now),
      ("lastUpdate", if jsTruthy (jsGetField np "lastUpdate") then jsGetField np "lastUpdate" else .num now),
      ("notes", .arr ((jsArrElems (jsGetField np "notes")).enum.map (fun p => processNote (gen p.1) p.2))) ]

/-- Whether a backup candidate passes `dataFallbackMode`'s standard
safeguard: `notepad && notepad.id && Array.isArray(notepad.notes)`. -/
def candidatePasses (np : JSVal) : Bool :=
  jsTruthy np && jsTruthy (jsGetField np "id") && jsIsArray (jsGetField np "notes")

/-- Model of the `validatedData` mapping `dataFallbackMode` accumulates over
the backup collection's entries: candidates failing the safeguard are
silently dropped, the rest are processed (`gen i j` is the id minted for
note `j` of the candidate at position `i`). -/
def validateBackup (now : Int) (gen : Nat → Nat → String) (newData : JSVal) : List (String × JSVal) :=
  (jsEntries newData).enum.filterMap
    (fun p => if candidatePasses p.2.2 then some (p.2.1, processNotepad now (gen p.1) p.2.2) else none)

/-- The three ways `dataFallbackMode` can end: the "use Import instead"
alert for a single-notepad file, the "No valid backup data found" alert
(the spec's NoValidData), or the invocation of the caller's callback on the
validated mapping. -/
inductive RestoreOutcome where
  | singleNotepadAlert
  | noValidData
  | applied (validated : List (String × JSVal))

/-- The structure-detection condition `isSingleNotepad` of
`dataFallbackMode`: `newData && newData.notes && Array.isArray(newData.notes)`. -/
def isSingleNotepadShape (newData : JSVal) : Bool :=
  jsTruthy newData && jsTruthy (jsGetField newData "notes") && jsIsArray (jsGetField newData "notes")

/-- The structure-detection condition `isBackupCollection` of
`dataFallbackMode`: `newData && !isSingleNotepad && typeof newData === 'object'`. -/
def isBackupCollectionShape (newData : JSVal) : Bool :=
  jsTruthy newData && !isSingleNotepadShape newData && jsTypeofIsObject newData

/-- Model of `dataFallbackMode` (src utils): detect the structure, alert and
stop on a single-notepad file, validate a backup collection entirely in
memory, then either hand the validated mapping to the callback (when it is
non-empty) or alert NoValidData. -/
def dataFallbackMode (now : Int) (gen : Nat → Nat → String) (newData : JSVal) : RestoreOutcome :=
  if isSingleNotepadShape newData then .singleNotepadAlert
  else
    let validated := if isBackupCollectionShape newData then validateBackup now gen newData else []
    if validated.length > 0 then .applied validated else .noValidData

/-- An operation on the Local Store, as issued by the restore and import
paths. -/
inductive StoreOp where
  | clear
  | bulkPut (data : List (String × JSVal))

/-- Model of `StorageDB.bulkPut`: `store.put(value, id)` for every entry of
the mapping, i.e. upsert by key. -/
def bulkPutLib (lib : List (String × JSVal)) (data : List (String × JSVal)) : List (String × JSVal) :=
  data.foldl (fun acc p => setInFields p.1 p.2 acc) lib

/-- Run a list of store operations against a Library. -/
def runStoreOps (lib : List (String × JSVal)) : List StoreOp → List (String × JSVal)
  | [] => lib
  | .clear :: rest => runStoreOps [] rest
  | .bulkPut data :: rest => runStoreOps (bulkPutLib lib data) rest

/-- Model of the store operations `restoreFullLibrary` (notepadActions)
issues for a parsed backup payload: its callback — `db.clear()` then
`db.bulkPut(validatedData)` — runs exactly when `dataFallbackMode` reached
the callback branch; the alert branches perform no store operation. -/
def restoreEffects (now : Int) (gen : Nat → Nat → String) (parsed : JSVal) : List StoreOp :=
  match dataFallbackMode now gen parsed with
  | .applied validated => [.clear, .bulkPut validated]
  | _ => []

/-- The short-circuiting `Object.values(newData).some((v) => v.notes)` of
`importSingleNotepad`: `none` models the TypeError thrown when the scan
reaches a `null`/`undefined` value (caught by the surrounding handler),
otherwise whether some value's `notes` is truthy. -/
def jsSomeTruthyNotes : List JSVal → Option Bool
  | [] => some false
  | .null :: _ => none
  | .undefined :: _ => none
  | v :: rest =>
      if jsTruthy (jsGetField v "notes") then some true else jsSomeTruthyNotes rest

/-- How the structure checks of `importSingleNotepad` can end: the "use
Restore instead" alert for a backup file, the `Invalid structure` error
(no `notes` field), the generic catch of a thrown error, or proceeding
with the hydrated notepad. -/
inductive ImportOutcome where
  | backupAlert
  | invalidStructure
  | caughtError
  | proceeds (notepad : JSVal)

/-- Model of the structure checks of `importSingleNotepad` (notepadActions)
on the parsed payload: evaluate the `isBackup` heuristic (short-circuiting,
so `Object.values(...).some(...)` only runs on a truthy object-typed payload
without a truthy `notes`), alert and stop when it holds, throw
`Invalid structure` when the payload or its `notes` is falsy, otherwise
hydrate the notes and proceed with `{...notepadData, notes: hydratedNotes}`. -/
def importCheck (newData : JSVal) : ImportOutcome :=
  let scanned :=
    if jsTruthy newData ∧ ¬ jsTruthy (jsGetField newData "notes") ∧ jsTypeofIsObject newData
    then jsSomeTruthyNotes (jsValues newData)
    else some false
  match scanned with
  | none => .caughtError
  | some someNotes =>
      let isBackup :=
        jsTruthy newData && !jsTruthy (jsGetField newData "notes") &&
          jsTypeofIsObject newData && someNotes
      if isBackup then .backupAlert
      else if ¬ jsTruthy newData ∨ ¬ jsTruthy (jsGetField newData "notes") then .invalidStructure
      else .proceeds (jsSetField newData "notes" (hydrateNotes base64ToBlob (jsGetField newData "notes")))

/-- The user's answer to the collision dialog of `importSingleNotepad`; the
confirmation-prompt collaborator guarantees exactly one of the three actions
executes. -/
inductive CollisionChoice where
  | keepBoth
  | replace
  | cancel

/-- Model of `saveToDatabase` in `importSingleNotepad`:
`db.bulkPut({ [target.id]: target })`. -/
def saveToDatabase (lib : List (String × JSVal)) (target : JSVal) : List (String × JSVal) :=
  bulkPutLib lib [(jsKeyOf (jsGetField target "id"), target)]

/-- Model of the three collision resolutions of `importSingleNotepad`:
keep both writes `{...notepad, id: generateID('notepad')}` (with `gen` the
minted id), replace writes the notepad under its own id, cancel touches
nothing. -/
def importResolve (gen : String) (lib : List (String × JSVal)) (notepad : JSVal) :
    CollisionChoice → List (String × JSVal)
  | .keepBoth => saveToDatabase lib (jsSetField notepad "id" (.str gen))
  | .replace => saveToDatabase lib notepad
  | .cancel => lib

/-- The duplicate test of `importSingleNotepad`:
`currentLibrary[notepad.id]` is truthy. -/
def importIsDuplicate (lib : List (String × JSVal)) (notepad : JSVal) : Bool :=
  match List.lookup (jsKeyOf (jsGetField notepad "id")) lib with
  | some v => jsTruthy v
  | none => false

/-- Model of the write step of `importSingleNotepad` after hydration: on a
collision the library resulting from the chosen dialog action, otherwise the
direct write. -/
def importWriteStep (gen : String) (lib : List (String × JSVal)) (notepad : JSVal)
    (choice : CollisionChoice) : List (String × JSVal) :=
  if importIsDuplicate lib notepad then importResolve gen lib notepad choice
  else saveToDatabase lib notepad

/-- An in-memory note attachment (data model §3): metadata plus a binary
blob handle. -/
structure NoteAttachment where
  name : String
  type : String
  mimeType : String
  size : Nat
  blob : JSBlob
deriving DecidableEq, Repr

/-- An in-memory note as the reducer sees it (data model §3). -/
structure Note where
  id : String
  title : String
  content : String
  accentColor : String
  attachment : Option NoteAttachment
  collapsed : Bool
deriving DecidableEq, Repr

/-- An in-memory notepad document, the reducer's state. -/
structure Notepad where
  id : String
  title : String
  created : Nat
  lastUpdate : Nat
  notes : List Note
deriving DecidableEq, Repr

/-- The commands of `notepadReducer` (the `ACTIONS` table of
notepadReducer.js). `MoveNote` indices are the 1-based values callers
dispatch, kept as integers since the reducer subtracts before checking
bounds. -/
inductive NotepadAction where
  | setNotepad (payload : Notepad)
  | updateTitle (payload : String)
  | addNote (payload : Note)
  | duplicateNote (originalId : String) (newNote : Note)
  | updateNote (payload : Note)
  | deleteNote (payload : String)
  | moveNote (oldIndex newIndex : Int)
deriving DecidableEq, Repr

/-- Whether a command is the verbatim-replace `SET_NOTEPAD`. -/
def NotepadAction.isSetNotepad : NotepadAction → Bool
  | .setNotepad _ => true
  | _ => false

/-- Model of `notepadReducer` (notepadReducer.js); `timestamp` is the
`Date.now()` read at the top of the function. The `MOVE_NOTE` case mirrors
`splice`: the target index is bounds-checked first, the source index is
normalised the way a negative `splice` start is (counted from the end,
clamped at 0). When the normalised source lies past the end, JavaScript's
first splice removes nothing and the second splices the `undefined` value
into the array; that ill-typed degenerate array is modelled as inserting
nothing. -/
def notepadReducer (state : Notepad) (action : NotepadAction) (timestamp : Nat) : Notepad :=
  match action with
  | .setNotepad payload => payload
  | .updateTitle t =>
      { state with title := t, lastUpdate := timestamp }
  | .addNote n =>
      { state with lastUpdate := timestamp, notes := state.notes ++ [n] }
  | .duplicateNote originalId newNote =>
      match state.notes.findIdx? (fun n => n.id = originalId) with
      | none => state
      | some index =>
          { state with
              lastUpdate := timestamp,
              notes := state.notes.insertIdx (index + 1) newNote }
  | .updateNote payload =>
      { state with
          lastUpdate := timestamp,
          notes := state.notes.map (fun n => if n.id = payload.id then payload else n) }
  | .deleteNote noteId =>
      { state with
          lastUpdate := timestamp,
          notes := state.notes.filter (fun n => n.id ≠ noteId) }
  | .moveNote oldIndex newIndex =>
      let fromIdx : Int := oldIndex - 1
      let toIdx : Int := newIndex - 1
      if toIdx < 0 ∨ (state.notes.length : Int) ≤ toIdx then state
      else
        let start : Nat :=
          (if fromIdx < 0 then max ((state.notes.length : Int) + fromIdx) 0
           else min fromIdx (state.notes.length : Int)).toNat
        if h : start < state.notes.length then
          { state with
              lastUpdate := timestamp,
              notes := (state.notes.eraseIdx start).insertIdx toIdx.toNat (state.notes.get ⟨start, h⟩) }
        else
          { state with lastUpdate := timestamp, notes := state.notes }

/-- Apply a sequence of reducer commands, each paired with the `Date.now()`
value read when it is dispatched. -/
def applyActions (state : Notepad) : List (NotepadAction × Nat) → Notepad
  | [] => state
  | (a, t) :: rest => applyActions (notepadReducer state a t) rest

/-- The intermediate documents a command sequence passes through. -/
def reducerTrace (state : Notepad) : List (NotepadAction × Nat) → List Notepad
  | [] => []
  | (a, t) :: rest =>
      notepadReducer state a t :: reducerTrace (notepadReducer state a t) rest

/-- Whether the reducer stamps `lastUpdate` for this command in this state:
every command does except `SET_NOTEPAD` (verbatim replace), a
`DUPLICATE_NOTE` whose original is missing, and a `MOVE_NOTE` whose target
index fails the bounds check — those return the state object unchanged. -/
def restamps (state : Notepad) : NotepadAction → Bool
  | .setNotepad _ => false
  | .duplicateNote originalId _ => (state.notes.findIdx? (fun n => n.id = originalId)).isSome
  | .moveNote _ newIndex =>
      decide (¬ (newIndex - 1 < 0 ∨ (state.notes.length : Int) ≤ newIndex - 1))
  | _ => true

/-- The timestamp the document should carry after a run: the dispatch time
of the last command that restamped, or `acc` (initially the starting
document's `lastUpdate`) when none did. -/
def lastStampTime (state : Notepad) (acc : Nat) : List (NotepadAction × Nat) → Nat
  | [] => acc
  | (a, t) :: rest =>
      lastStampTime (notepadReducer state a t) (if restamps state a then t else acc) rest

/-- Whether a list of naturals is sorted in non-decreasing order. -/
def nondecreasing : List Nat → Bool
  | [] => true
  | [_] => true
  | a :: b :: rest => decide (a ≤ b) && nondecreasing (b :: rest)

/-- Wellformedness of an attachment blob slot for the serialization
round-trip law: a binary blob must carry real bytes (below 256) and a
comma-free MIME type; an already-serialized string blob is excluded (a
valid in-memory notepad never holds one); anything else (no attachment, a
null or absent blob) is fine. -/
def validRoundTripBlob : JSVal → Bool
  | .blob bb => bb.bytes.all (fun x => decide (x < 256)) && bb.type.toList.all (fun c => decide (c ≠ ','))
  | .str _ => false
  | _ => true

/-- A note is valid for the round-trip law when its `attachment?.blob` slot
is wellformed. -/
def validNote (note : JSVal) : Bool :=
  validRoundTripBlob (jsGetField (jsGetField note "attachment") "blob")

/-! ### Helper lemmas about field lists and object updates -/

theorem lookup_setInFields_self (k : String) (x : JSVal) (l : List (String × JSVal)) :
    List.lookup k (setInFields k x l) = some x := by
  induction l with
  | nil => simp [setInFields, List.lookup]
  | cons p rest ih =>
      obtain ⟨k', v'⟩ := p
      by_cases h : k' = k
      · simp [setInFields, h, List.lookup]
      · have hb : (k == k') = false := beq_eq_false_iff_ne.mpr (fun he => h he.symm)
        simp only [setInFields, if_neg h, List.lookup, hb]
        exact ih

theorem lookup_setInFields_ne (k k' : String) (x : JSVal) (l : List (String × JSVal))
    (h : k' ≠ k) : List.lookup k' (setInFields k x l) = List.lookup k' l := by
  have hb : (k' == k) = false := beq_eq_false_iff_ne.mpr h
  induction l with
  | nil => simp [setInFields, List.lookup, hb]
  | cons p rest ih =>
      obtain ⟨k'', v''⟩ := p
      by_cases hk : k'' = k
      · subst hk
        simp [setInFields, List.lookup, hb]
      · simp only [setInFields, if_neg hk, List.lookup]
        cases hkk : (k' == k'') with
        | true => rfl
        | false => exact ih

theorem setInFields_of_lookup_eq (k : String) (x : JSVal) (l : List (String × JSVal))
    (h : List.lookup k l = some x) : setInFields k x l = l := by
  induction l with
  | nil => simp [List.lookup] at h
  | cons p rest ih =>
      obtain ⟨k', v'⟩ := p
      by_cases hk : k' = k
      · subst hk
        simp only [List.lookup, beq_self_eq_true] at h
        injection h with h
        simp [setInFields, h]
      · have hb : (k == k') = false := beq_eq_false_iff_ne.mpr (fun he => hk he.symm)
        simp only [List.lookup, hb] at h
        simp [setInFields, if_neg hk, ih h]

theorem setInFields_setInFields (k : String) (x y : JSVal) (l : List (String × JSVal)) :
    setInFields k x (setInFields k y l) = setInFields k x l := by
  induction l with
  | nil => simp [setInFields]
  | cons p rest ih =>
      obtain ⟨k', v'⟩ := p
      by_cases hk : k' = k
      · simp [setInFields, hk]
      · simp [setInFields, if_neg hk, ih]

theorem jsGetField_setField_self (v : JSVal) (k : String) (x : JSVal) :
    jsGetField (jsSetField v k x) k = x := by
  simp [jsGetField, jsSetField, jsObjFields, lookup_setInFields_self]

theorem jsGetField_setField_ne (v : JSVal) (k k' : String) (x : JSVal) (h : k' ≠ k) :
    jsGetField (jsSetField v k x) k' = jsGetField v k' := by
  simp [jsGetField, jsSetField, jsObjFields, lookup_setInFields_ne _ _ _ _ h]

/-! ### Helper lemmas about the Base64 / data URL codec -/

theorem b64Index_b64Char : ∀ v < 64, b64Index (b64Char v) = some v := by decide

theorem b64Alphabet_no_pad_comma : ∀ c ∈ b64Alphabet, c ≠ '=' ∧ c ≠ ',' := by decide

theorem b64Char_mem_or_default (n : Nat) : b64Char n ∈ b64Alphabet ∨ b64Char n = 'A' := by
  unfold b64Char
  by_cases h : n < b64Alphabet.length
  · left
    rw [List.getD_eq_getElem _ _ h]
    exact List.getElem_mem h
  · right
    exact List.getD_eq_default _ _ (Nat.le_of_not_lt h)

theorem b64Char_ne_pad (n : Nat) : b64Char n ≠ '=' := by
  rcases b64Char_mem_or_default n with h | h
  · exact (b64Alphabet_no_pad_comma _ h).1
  · rw [h]; decide

theorem b64Char_ne_comma (n : Nat) : b64Char n ≠ ',' := by
  rcases b64Char_mem_or_default n with h | h
  · exact (b64Alphabet_no_pad_comma _ h).2
  · rw [h]; decide

theorem base64_decode_encode :
    ∀ bytes : List Nat, (∀ b ∈ bytes, b < 256) →
      base64DecodeChunks (base64EncodeChunks bytes) = some bytes
  | [], _ => rfl
  | [b1], h => by
      have hb1 : b1 < 256 := h b1 (by simp)
      have e1 := b64Index_b64Char (b1 / 4) (by omega)
      have e2 := b64Index_b64Char (b1 % 4 * 16) (by omega)
      have ea : b1 / 4 * 4 + b1 % 4 * 16 / 16 = b1 := by omega
      simp [base64EncodeChunks, base64DecodeChunks, e1, e2, ea]
      omega
  | [b1, b2], h => by
      have hb1 : b1 < 256 := h b1 (by simp)
      have hb2 : b2 < 256 := h b2 (by simp)
      have e1 := b64Index_b64Char (b1 / 4) (by omega)
      have e2 := b64Index_b64Char (b1 % 4 * 16 + b2 / 16) (by omega)
      have e3 := b64Index_b64Char (b2 % 16 * 4) (by omega)
      have p3 := b64Char_ne_pad (b2 % 16 * 4)
      have ea1 : b1 / 4 * 4 + (b1 % 4 * 16 + b2 / 16) / 16 = b1 := by omega
      have ea2 : (b1 % 4 * 16 + b2 / 16) % 16 * 16 + b2 % 16 * 4 / 4 = b2 := by omega
      simp [base64EncodeChunks, base64DecodeChunks, e1, e2, e3, p3, ea1, ea2]
      omega
  | b1 :: b2 :: b3 :: rest, h => by
      have hb1 : b1 < 256 := h b1 (by simp)
      have hb2 : b2 < 256 := h b2 (by simp)
      have hb3 : b3 < 256 := h b3 (by simp)
      have ih := base64_decode_encode rest (fun b hb => h b (by simp [hb]))
      have e1 := b64Index_b64Char (b1 / 4) (by omega)
      have e2 := b64Index_b64Char (b1 % 4 * 16 + b2 / 16) (by omega)
      have e3 := b64Index_b64Char (b2 % 16 * 4 + b3 / 64) (by omega)
      have e4 := b64Index_b64Char (b3 % 64) (by omega)
      have p3 := b64Char_ne_pad (b2 % 16 * 4 + b3 / 64)
      have p4 := b64Char_ne_pad (b3 % 64)
      have ea1 : b1 / 4 * 4 + (b1 % 4 * 16 + b2 / 16) / 16 = b1 := by omega
      have ea2 : (b1 % 4 * 16 + b2 / 16) % 16 * 16 + (b2 % 16 * 4 + b3 / 64) / 4 = b2 := by omega
      have ea3 : (b2 % 16 * 4 + b3 / 64) % 4 * 64 + b3 % 64 = b3 := by omega
      simp [base64EncodeChunks, base64DecodeChunks, e1, e2, e3, e4, p3, p4, ih, ea1, ea2, ea3]

theorem base64EncodeChunks_ne_comma :
    ∀ (bytes : List Nat), ∀ c ∈ base64EncodeChunks bytes, c ≠ ','
  | [], c, hc => by simp [base64EncodeChunks] at hc
  | [b1], c, hc => by
      simp only [base64EncodeChunks, List.mem_cons, List.not_mem_nil, or_false] at hc
      rcases hc with rfl | rfl | rfl | rfl
      · exact b64Char_ne_comma _
      · exact b64Char_ne_comma _
      · decide
      · decide
  | [b1, b2], c, hc => by
      simp only [base64EncodeChunks, List.mem_cons, List.not_mem_nil, or_false] at hc
      rcases hc with rfl | rfl | rfl | rfl
      · exact b64Char_ne_comma _
      · exact b64Char_ne_comma _
      · exact b64Char_ne_comma _
      · decide
  | b1 :: b2 :: b3 :: rest, c, hc => by
      simp only [base64EncodeChunks, List.mem_cons] at hc
      rcases hc with rfl | rfl | rfl | rfl | hmem
      · exact b64Char_ne_comma _
      · exact b64Char_ne_comma _
      · exact b64Char_ne_comma _
      · exact b64Char_ne_comma _
      · exact base64EncodeChunks_ne_comma rest c hmem

theorem splitAtComma_append (pre post : List Char) (h : ∀ c ∈ pre, c ≠ ',') :
    splitAtComma (pre ++ ',' :: post) = some (pre, post) := by
  induction pre with
  | nil => simp [splitAtComma]
  | cons c rest ih =>
      have hc : c ≠ ',' := h c (by simp)
      simp only [List.cons_append, splitAtComma, if_neg hc, List.append_eq]
      rw [ih (fun c' hc' => h c' (by simp [hc']))]

theorem dataURLToBlob_blobToDataURL (b : JSBlob)
    (hbytes : ∀ x ∈ b.bytes, x < 256) (htype : ∀ c ∈ b.type.toList, c ≠ ',') :
    dataURLToBlob (blobToDataURL b) = some b := by
  have hdata : (blobToDataURL b).toList =
      "data:".toList ++ ((b.type.toList ++ ";base64".toList) ++ ',' :: base64EncodeChunks b.bytes) := by
    show (blobToDataURL b).data = _
    simp only [blobToDataURL, String.data_append]
    simp
  have hsb : ∀ c ∈ ";base64".toList, c ≠ ',' := by decide
  have hnc : ∀ c ∈ b.type.toList ++ ";base64".toList, c ≠ ',' := by
    intro c hc
    rcases List.mem_append.mp hc with hc | hc
    · exact htype c hc
    · exact hsb c hc
  unfold dataURLToBlob
  rw [hdata]
  rw [if_pos (List.isPrefixOf_iff_prefix.mpr ⟨_, rfl⟩)]
  rw [List.drop_left' (by decide)]
  rw [splitAtComma_append _ _ hnc]
  have hsuf : List.isSuffixOf ";base64".toList (b.type.toList ++ ";base64".toList) = true :=
    List.isSuffixOf_iff_suffix.mpr ⟨_, rfl⟩
  have hdec := base64_decode_encode b.bytes hbytes
  have hlen : (b.type.toList ++ ";base64".toList).length - 7 = b.type.toList.length := by simp
  simp only [hsuf, if_true, hdec, hlen, List.take_left]
  show some ⟨String.mk b.type.data, b.bytes⟩ = some b
  rfl

theorem blobToDataURL_toList (b : JSBlob) :
    (blobToDataURL b).toList =
      "data:".toList ++ ((b.type.toList ++ ";base64".toList) ++ ',' :: base64EncodeChunks b.bytes) := by
  show (blobToDataURL b).data = _
  simp only [blobToDataURL, String.data_append]
  simp

theorem base64ToBlob_blobToBase64 (b : JSBlob)
    (hbytes : ∀ x ∈ b.bytes, x < 256) (htype : ∀ c ∈ b.type.toList, c ≠ ',') :
    base64ToBlob (blobToBase64 (.blob b)) = .blob b := by
  show base64ToBlob (.str (blobToDataURL b)) = .blob b
  have hne : blobToDataURL b ≠ "" := by
    intro he
    have h2 : (blobToDataURL b).toList = [] := by rw [he]; rfl
    rw [blobToDataURL_toList] at h2
    simp at h2
  have hpre : List.isPrefixOf "data:".toList (blobToDataURL b).toList = true := by
    rw [blobToDataURL_toList]
    exact List.isPrefixOf_iff_prefix.mpr ⟨_, rfl⟩
  simp only [base64ToBlob]
  rw [if_neg hne, if_neg (not_not_intro hpre), dataURLToBlob_blobToDataURL b hbytes htype]

theorem jsGetField_eq_lookup (v : JSVal) (k : String) (x : JSVal) (hx : x ≠ .undefined)
    (h : jsGetField v k = x) : ∃ fs, v = .obj fs ∧ List.lookup k fs = some x := by
  cases v with
  | obj fs =>
      refine ⟨fs, rfl, ?_⟩
      simp only [jsGetField, jsObjFields] at h
      cases hl : List.lookup k fs with
      | none => rw [hl] at h; exact absurd h.symm hx
      | some y => rw [hl] at h; rw [← h]; rfl
  | undefined => exact ((hx (by rw [← h]; rfl)).elim)
  | null => exact ((hx (by rw [← h]; rfl)).elim)
  | bool b => exact ((hx (by rw [← h]; rfl)).elim)
  | num n => exact ((hx (by rw [← h]; rfl)).elim)
  | str s => exact ((hx (by rw [← h]; rfl)).elim)
  | arr l => exact ((hx (by rw [← h]; rfl)).elim)
  | blob bb => exact ((hx (by rw [← h]; rfl)).elim)

theorem hydrateNote_serializeNote (note : JSVal) (h : validNote note = true) :
    hydrateNote base64ToBlob (serializeNote blobToBase64 note) = note := by
  unfold validNote at h
  cases hblob : jsGetField (jsGetField note "attachment") "blob" with
  | str s => rw [hblob] at h; simp [validRoundTripBlob] at h
  | undefined => simp only [serializeNote, hydrateNote, hblob]
  | null => simp only [serializeNote, hydrateNote, hblob]
  | bool b => simp only [serializeNote, hydrateNote, hblob]
  | num n => simp only [serializeNote, hydrateNote, hblob]
  | arr l => simp only [serializeNote, hydrateNote, hblob]
  | obj fs0 => simp only [serializeNote, hydrateNote, hblob]
  | blob bb =>
      rw [hblob] at h
      have hvb : (bb.bytes.all (fun x => decide (x < 256)) &&
          bb.type.toList.all (fun c => decide (c ≠ ','))) = true := h
      rw [Bool.and_eq_true] at hvb
      have hbytes : ∀ x ∈ bb.bytes, x < 256 := by
        have h1 := hvb.1
        rw [List.all_eq_true] at h1
        exact fun x hx => of_decide_eq_true (h1 x hx)
      have htype : ∀ c ∈ bb.type.toList, c ≠ ',' := by
        have h2 := hvb.2
        rw [List.all_eq_true] at h2
        exact fun c hc => of_decide_eq_true (h2 c hc)
      obtain ⟨afs, hatt, hlookb⟩ :=
        jsGetField_eq_lookup _ _ _ (by intro hh; cases hh) hblob
      obtain ⟨fs, hnote, hlooka⟩ :=
        jsGetField_eq_lookup _ _ _ (by intro hh; cases hh) hatt
      have hser : serializeNote blobToBase64 note =
          jsSetField note "attachment"
            (jsSetField (jsGetField note "attachment") "blob" (.str (blobToDataURL bb))) := by
        simp only [serializeNote, hblob, blobToBase64]
      have hattS : jsGetField (serializeNote blobToBase64 note) "attachment" =
          jsSetField (jsGetField note "attachment") "blob" (.str (blobToDataURL bb)) := by
        rw [hser, jsGetField_setField_self]
      have hblobS : jsGetField (jsGetField (serializeNote blobToBase64 note) "attachment") "blob" =
          .str (blobToDataURL bb) := by
        rw [hattS, jsGetField_setField_self]
      simp only [hydrateNote, hblobS]
      rw [hattS]
      rw [show base64ToBlob (.str (blobToDataURL bb)) = .blob bb from
        base64ToBlob_blobToBase64 bb hbytes htype]
      have hinner :
          jsSetField (jsSetField (jsGetField note "attachment") "blob" (.str (blobToDataURL bb)))
            "blob" (.blob bb) = jsGetField note "attachment" := by
        rw [hatt]
        show JSVal.obj (setInFields "blob" (.blob bb) (setInFields "blob" (.str (blobToDataURL bb)) afs)) = _
        rw [setInFields_setInFields, setInFields_of_lookup_eq _ _ _ hlookb]
      rw [hinner]
      rw [hser, hatt, hnote]
      show JSVal.obj (setInFields "attachment" (.obj afs)
        (setInFields "attachment" (jsSetField (.obj afs) "blob" (.str (blobToDataURL bb))) fs)) = _
      rw [setInFields_setInFields, setInFields_of_lookup_eq _ _ _ hlooka]

theorem hydrate_serialize_map (notes : List JSVal) (h : ∀ n ∈ notes, validNote n = true) :
    notes.map (fun n => hydrateNote base64ToBlob (serializeNote blobToBase64 n)) = notes := by
  induction notes with
  | nil => rfl
  | cons n rest ih =>
      simp only [List.map_cons]
      rw [hydrateNote_serializeNote n (h n (by simp)), ih (fun m hm => h m (by simp [hm]))]

/-- Claim C2: for every valid notepad — every note's attachment blob a
binary blob (wellformed bytes, comma-free MIME type), never an
already-serialized string — hydrating the serialization of its notes
(`hydrateNotes` after `serializeNotes`, with the app's Base64 data-URL
codec) returns the notes unchanged, field for field, with attachment blob
content equal. -/
theorem serializeNotes_hydrateNotes_roundtrip (notes : List JSVal)
    (h : ∀ n ∈ notes, validNote n = true) :
    hydrateNotes base64ToBlob (serializeNotes blobToBase64 (.arr notes)) = .arr notes := by
  simp only [serializeNotes, hydrateNotes, List.map_map, Function.comp_def]
  rw [hydrate_serialize_map notes h]

/-- Witness for claim C2 at a concrete notepad with a two-byte `text/plain`
attachment. -/
theorem serializeNotes_hydrateNotes_roundtrip_witness :
    (∀ n ∈ [JSVal.obj [("id", .str "n1"), ("title", .str "t"),
        ("attachment", .obj [("name", .str "f"), ("mimeType", .str "text/plain"),
          ("blob", .blob ⟨"text/plain", [72, 105]⟩)])]], validNote n = true) ∧
    hydrateNotes base64ToBlob (serializeNotes blobToBase64
        (.arr [JSVal.obj [("id", .str "n1"), ("title", .str "t"),
          ("attachment", .obj [("name", .str "f"), ("mimeType", .str "text/plain"),
            ("blob", .blob ⟨"text/plain", [72, 105]⟩)])]])) =
      .arr [JSVal.obj [("id", .str "n1"), ("title", .str "t"),
        ("attachment", .obj [("name", .str "f"), ("mimeType", .str "text/plain"),
          ("blob", .blob ⟨"text/plain", [72, 105]⟩)])]] :=
  ⟨by decide, serializeNotes_hydrateNotes_roundtrip _ (by decide)⟩

/-- Claim C7 (amended): during hydration, a note whose attachment blob is a
string that fails decoding (malformed or not a data URL) has that blob
replaced by `null`, while the attachment object itself — its metadata — is
retained (it does not become a note with no attachment); the surrounding
operation succeeds, with every other note hydrated independently. -/
theorem hydrateNotes_bad_blob_keeps_attachment (pre post : List JSVal) (note : JSVal) (s : String)
    (hstr : jsGetField (jsGetField note "attachment") "blob" = .str s)
    (hbad : base64ToBlob (.str s) = .null) :
    hydrateNotes base64ToBlob (.arr (pre ++ note :: post)) =
      .arr (pre.map (hydrateNote base64ToBlob) ++
        jsSetField note "attachment"
          (jsSetField (jsGetField note "attachment") "blob" JSVal.null) ::
        post.map (hydrateNote base64ToBlob)) ∧
    jsGetField (jsSetField (jsGetField note "attachment") "blob" JSVal.null) "blob" = JSVal.null ∧
    jsSetField note "attachment"
        (jsSetField (jsGetField note "attachment") "blob" JSVal.null) ≠ JSVal.null := by
  refine ⟨?_, jsGetField_setField_self _ _ _, by intro hh; cases hh⟩
  simp only [hydrateNotes, List.map_append, List.map_cons]
  rw [show hydrateNote base64ToBlob note =
    jsSetField note "attachment"
      (jsSetField (jsGetField note "attachment") "blob" JSVal.null) from by
    simp only [hydrateNote, hstr, hbad]]

/-- Counterexample to claim C7 as stated: hydrating a note whose attachment
blob is the non-data-URL string "garbage" yields a note that still carries
its attachment object (metadata intact, blob `null`) — the attachment is not
dropped, so the note does not degrade to a note with no attachment. -/
theorem hydrateNotes_bad_blob_counterexample :
    hydrateNotes base64ToBlob (.arr [.obj [("id", .str "n1"),
        ("attachment", .obj [("name", .str "f"), ("blob", .str "garbage")])]]) =
      .arr [.obj [("id", .str "n1"),
        ("attachment", .obj [("name", .str "f"), ("blob", JSVal.null)])]] ∧
    jsGetField (.obj [("id", .str "n1"),
        ("attachment", .obj [("name", .str "f"), ("blob", JSVal.null)])]) "attachment" ≠
      JSVal.null :=
  ⟨rfl, by intro hh; cases hh⟩

/-- Witness for claim C7's amended theorem at the "garbage" blob string. -/
theorem hydrateNotes_bad_blob_keeps_attachment_witness :
    (jsGetField (jsGetField (JSVal.obj [("id", .str "n1"),
        ("attachment", .obj [("name", .str "f"), ("blob", .str "garbage")])]) "attachment")
        "blob" = .str "garbage") ∧
    base64ToBlob (.str "garbage") = JSVal.null ∧
    (hydrateNotes base64ToBlob (.arr [.obj [("id", .str "n1"),
        ("attachment", .obj [("name", .str "f"), ("blob", .str "garbage")])]]) =
      .arr [.obj [("id", .str "n1"),
        ("attachment", .obj [("name", .str "f"), ("blob", JSVal.null)])]] ∧
     jsGetField (.obj [("name", .str "f"), ("blob", JSVal.null)]) "blob" = JSVal.null ∧
     (JSVal.obj [("id", .str "n1"),
        ("attachment", .obj [("name", .str "f"), ("blob", JSVal.null)])]) ≠ JSVal.null) :=
  ⟨rfl, rfl, hydrateNotes_bad_blob_keeps_attachment [] [] _ "garbage" rfl rfl⟩

/-- Claim C1: the restore path never clears the Local Store before
validation has completed: validation runs entirely in memory, and when the
validated set is empty the outcome is the NoValidData alert, no store
operation is issued and the existing Library is untouched; `clear` (followed
immediately by the `bulkPut` of the validated set) is issued only when the
validated set is non-empty. -/
theorem restore_clear_only_after_validation (now : Int) (gen : Nat → Nat → String)
    (newData : JSVal) (lib : List (String × JSVal)) :
    (validateBackup now gen newData = [] →
      restoreEffects now gen newData = [] ∧
      runStoreOps lib (restoreEffects now gen newData) = lib ∧
      (isSingleNotepadShape newData = false →
        dataFallbackMode now gen newData = .noValidData)) ∧
    (StoreOp.clear ∈ restoreEffects now gen newData →
      validateBackup now gen newData ≠ [] ∧
      restoreEffects now gen newData =
        [.clear, .bulkPut (validateBackup now gen newData)]) := by
  constructor
  · intro hv
    have hout : dataFallbackMode now gen newData = .singleNotepadAlert ∨
        dataFallbackMode now gen newData = .noValidData := by
      simp only [dataFallbackMode]
      by_cases hs : isSingleNotepadShape newData = true
      · rw [if_pos hs]; exact Or.inl rfl
      · rw [if_neg hs]
        have hval : (if isBackupCollectionShape newData = true
            then validateBackup now gen newData else []) = [] := by
          by_cases hb : isBackupCollectionShape newData = true
          · rw [if_pos hb]; exact hv
          · rw [if_neg hb]
        rw [hval]
        simp
    have heff : restoreEffects now gen newData = [] := by
      unfold restoreEffects
      rcases hout with h | h <;> rw [h]
    refine ⟨heff, by rw [heff]; rfl, fun hs => ?_⟩
    simp only [dataFallbackMode]
    rw [if_neg (by rw [hs]; exact Bool.false_ne_true)]
    have hval2 : (if isBackupCollectionShape newData = true
        then validateBackup now gen newData else []) = [] := by
      by_cases hb : isBackupCollectionShape newData = true
      · rw [if_pos hb]; exact hv
      · rw [if_neg hb]
    rw [hval2]
    rfl
  · intro hc
    cases hd : dataFallbackMode now gen newData with
    | singleNotepadAlert =>
        unfold restoreEffects at hc
        rw [hd] at hc
        cases hc
    | noValidData =>
        unfold restoreEffects at hc
        rw [hd] at hc
        cases hc
    | applied v =>
        have hpair : v = validateBackup now gen newData ∧
            (validateBackup now gen newData).length > 0 := by
          simp only [dataFallbackMode] at hd
          split at hd
          · cases hd
          · by_cases hb : isBackupCollectionShape newData = true
            · rw [if_pos hb] at hd
              split at hd
              · rename_i hlen
                injection hd with hd
                exact ⟨hd.symm, hlen⟩
              · cases hd
            · rw [if_neg hb] at hd
              cases hd
        constructor
        · intro hnil
          rw [hnil] at hpair
          simp at hpair
        · unfold restoreEffects
          rw [hd, hpair.1]

/-- Witness for claim C1 at the spec's empty-after-filtering payload
(a candidate whose `notes` is not an array) against a one-entry Library. -/
theorem restore_clear_only_after_validation_witness :
    validateBackup 0 (fun _ _ => "g")
        (.obj [("x", .obj [("notes", .str "not-an-array")])]) = [] ∧
    isSingleNotepadShape (.obj [("x", .obj [("notes", .str "not-an-array")])]) = false ∧
    runStoreOps [("k", JSVal.str "v")]
        (restoreEffects 0 (fun _ _ => "g")
          (.obj [("x", .obj [("notes", .str "not-an-array")])])) = [("k", JSVal.str "v")] ∧
    dataFallbackMode 0 (fun _ _ => "g")
        (.obj [("x", .obj [("notes", .str "not-an-array")])]) = .noValidData :=
  ⟨rfl, rfl,
    ((restore_clear_only_after_validation 0 (fun _ _ => "g")
        (.obj [("x", .obj [("notes", .str "not-an-array")])]) [("k", JSVal.str "v")]).1 rfl).2.1,
    ((restore_clear_only_after_validation 0 (fun _ _ => "g")
        (.obj [("x", .obj [("notes", .str "not-an-array")])]) [("k", JSVal.str "v")]).1 rfl).2.2 rfl⟩

theorem validateBackup_keys_aux (now : Int) (gen : Nat → Nat → String) :
    ∀ (i : Nat) (l : List (String × JSVal)),
      ((l.enumFrom i).filterMap (fun p =>
          if candidatePasses p.2.2 = true
          then some (p.2.1, processNotepad now (gen p.1) p.2.2) else none)).map Prod.fst =
        (l.filter (fun e => candidatePasses e.2)).map Prod.fst
  | _, [] => rfl
  | i, e :: rest => by
      simp only [List.enumFrom, List.filterMap_cons, List.filter_cons]
      by_cases hc : candidatePasses e.2 = true
      · rw [if_pos hc, if_pos hc]
        simp only [List.map_cons]
        rw [validateBackup_keys_aux now gen (i + 1) rest]
      · rw [if_neg hc, if_neg hc]
        rw [validateBackup_keys_aux now gen (i + 1) rest]

/-- Counterexample to claim C3 as stated: a candidate whose `id` field is
present (bound to the empty string) and whose `notes` is an array is
nevertheless dropped by restore validation, because the code requires the
`id` to be truthy, not merely present. -/
theorem validateBackup_counterexample :
    List.lookup "id" [("id", JSVal.str ""), ("notes", JSVal.arr [])] = some (JSVal.str "") ∧
    jsIsArray (jsGetField (JSVal.obj [("id", .str ""), ("notes", .arr [])]) "notes") = true ∧
    validateBackup 0 (fun _ _ => "g")
      (.obj [("a", .obj [("id", .str ""), ("notes", .arr [])])]) = [] :=
  ⟨rfl, rfl, rfl⟩

/-- Claim C3 (amended): a backup candidate is kept by restore validation if
and only if it is truthy with a truthy `id` and a `notes` field that is an
array (candidates failing this are silently dropped, the rest of the
operation proceeding); each kept candidate is rebuilt with falsy optional
fields backfilled — title "Untitled Notepad", created/lastUpdate the current
time, a generated note id, empty note title/content/accentColor, null
attachment — and the payload of spec §8 (entry `b` lacking an id) restores
exactly the single entry `a`. -/
theorem validateBackup_kept_iff_and_defaults (now : Int) (gen : Nat → Nat → String)
    (newData : JSVal) :
    (validateBackup now gen newData).map Prod.fst =
      ((jsEntries newData).filter (fun e => candidatePasses e.2)).map Prod.fst ∧
    (∀ np : JSVal, candidatePasses np =
      (jsTruthy np && jsTruthy (jsGetField np "id") && jsIsArray (jsGetField np "notes"))) ∧
    validateBackup now gen (.obj [("a", .obj [("id", .str "a"), ("notes", .arr [.obj []])])]) =
      [("a", .obj [("id", .str "a"), ("title", .str "Untitled Notepad"),
        ("created", .num now), ("lastUpdate", .num now),
        ("notes", .arr [.obj [("id", .str (gen 0 0)), ("title", .str ""),
          ("content", .str ""), ("accentColor", .str ""), ("attachment", JSVal.null)]])])] ∧
    (validateBackup now gen (.obj [("a", .obj [("id", .str "a"), ("notes", .arr [])]),
        ("b", .obj [("notes", .arr [])])])).map Prod.fst = ["a"] := by
  refine ⟨?_, fun np => rfl, rfl, rfl⟩
  unfold validateBackup
  exact validateBackup_keys_aux now gen 0 (jsEntries newData)

/-- Claim C10: every note produced by library-restore validation is an
object with exactly the fields id, title, content, accentColor and
attachment, in that order; in particular a `collapsed` field present on an
input note is not preserved. -/
theorem validateBackup_note_fields (now : Int) (gen : Nat → Nat → String) (newData : JSVal)
    (k : String) (np nv : JSVal)
    (hmem : (k, np) ∈ validateBackup now gen newData)
    (hnote : nv ∈ jsArrElems (jsGetField np "notes")) :
    (jsObjFields nv).map Prod.fst = ["id", "title", "content", "accentColor", "attachment"] ∧
    List.lookup "collapsed" (jsObjFields nv) = none := by
  unfold validateBackup at hmem
  rw [List.mem_filterMap] at hmem
  obtain ⟨p, hp, heq⟩ := hmem
  by_cases hc : candidatePasses p.2.2 = true
  · rw [if_pos hc] at heq
    injection heq with heq
    rw [Prod.mk.injEq] at heq
    have hnp : processNotepad now (gen p.1) p.2.2 = np := heq.2
    rw [← hnp] at hnote
    have hnotes : jsArrElems (jsGetField (processNotepad now (gen p.1) p.2.2) "notes") =
        (jsArrElems (jsGetField p.2.2 "notes")).enum.map
          (fun q => processNote (gen p.1 q.1) q.2) := rfl
    rw [hnotes] at hnote
    obtain ⟨q, hq, hnv⟩ := List.mem_map.mp hnote
    rw [← hnv]
    exact ⟨rfl, rfl⟩
  · rw [if_neg hc] at heq
    cases heq

/-- Witness for claim C10 at a payload whose single note carries a
`collapsed` field. -/
theorem validateBackup_note_fields_witness :
    (("a", JSVal.obj [("id", .str "a"), ("title", .str "Untitled Notepad"),
        ("created", .num 3), ("lastUpdate", .num 3),
        ("notes", .arr [.obj [("id", .str "g"), ("title", .str ""), ("content", .str ""),
          ("accentColor", .str ""), ("attachment", JSVal.null)]])]) ∈
      validateBackup 3 (fun _ _ => "g")
        (.obj [("a", .obj [("id", .str "a"),
          ("notes", .arr [.obj [("collapsed", .bool true)]])])])) ∧
    (JSVal.obj [("id", .str "g"), ("title", .str ""), ("content", .str ""),
        ("accentColor", .str ""), ("attachment", JSVal.null)] ∈
      jsArrElems (jsGetField (JSVal.obj [("id", .str "a"), ("title", .str "Untitled Notepad"),
        ("created", .num 3), ("lastUpdate", .num 3),
        ("notes", .arr [.obj [("id", .str "g"), ("title", .str ""), ("content", .str ""),
          ("accentColor", .str ""), ("attachment", JSVal.null)]])]) "notes")) ∧
    (jsObjFields (JSVal.obj [("id", .str "g"), ("title", .str ""), ("content", .str ""),
        ("accentColor", .str ""), ("attachment", JSVal.null)])).map Prod.fst =
      ["id", "title", "content", "accentColor", "attachment"] ∧
    List.lookup "collapsed" (jsObjFields (JSVal.obj [("id", .str "g"), ("title", .str ""),
        ("content", .str ""), ("accentColor", .str ""), ("attachment", JSVal.null)])) = none := by
  have h1 : ("a", JSVal.obj [("id", .str "a"), ("title", .str "Untitled Notepad"),
      ("created", .num 3), ("lastUpdate", .num 3),
      ("notes", .arr [.obj [("id", .str "g"), ("title", .str ""), ("content", .str ""),
        ("accentColor", .str ""), ("attachment", JSVal.null)]])]) ∈
      validateBackup 3 (fun _ _ => "g")
        (.obj [("a", .obj [("id", .str "a"),
          ("notes", .arr [.obj [("collapsed", .bool true)]])])]) :=
    List.mem_cons_self _ _
  have h2 : JSVal.obj [("id", .str "g"), ("title", .str ""), ("content", .str ""),
      ("accentColor", .str ""), ("attachment", JSVal.null)] ∈
      jsArrElems (jsGetField (JSVal.obj [("id", .str "a"), ("title", .str "Untitled Notepad"),
        ("created", .num 3), ("lastUpdate", .num 3),
        ("notes", .arr [.obj [("id", .str "g"), ("title", .str ""), ("content", .str ""),
          ("accentColor", .str ""), ("attachment", JSVal.null)]])]) "notes") :=
    List.mem_cons_self _ _
  exact ⟨h1, h2, validateBackup_note_fields 3 (fun _ _ => "g") _ "a" _ _ h1 h2⟩

/-- Counterexample to claim C4 as stated: a payload with no top-level
`notes` whose single value has a `notes` field that is a string, not a
sequence — so it is not true that its values each contain a `notes`
sequence — is nevertheless rejected as a backup collection, because the
code tests `Object.values(...).some((v) => v.notes)` (any truthy `notes`,
not each value holding a sequence). -/
theorem importCheck_counterexample :
    importCheck (.obj [("a", .obj [("notes", .str "hi")])]) = .backupAlert ∧
    jsIsArray (jsGetField (JSVal.obj [("notes", .str "hi")]) "notes") = false ∧
    (jsValues (.obj [("a", .obj [("notes", .str "hi")])])).all
      (fun v => jsIsArray (jsGetField v "notes")) = false :=
  ⟨rfl, rfl, rfl⟩

/-- Claim C4 (amended): single-notepad import rejects the payload as a
backup collection given to the wrong operation exactly when the payload is
truthy, of object type, lacks a truthy top-level `notes`, and the
short-circuit scan of its values finds some value with a truthy `notes`
field (not necessarily an array, and not necessarily every value). -/
theorem importCheck_backupAlert_iff (newData : JSVal) :
    importCheck newData = .backupAlert ↔
      (jsTruthy newData = true ∧ jsTruthy (jsGetField newData "notes") = false ∧
       jsTypeofIsObject newData = true ∧
       jsSomeTruthyNotes (jsValues newData) = some true) := by
  cases h1 : jsTruthy newData with
  | false => simp [importCheck, h1]
  | true =>
      cases h2 : jsTruthy (jsGetField newData "notes") with
      | true => simp [importCheck, h1, h2]
      | false =>
          cases h3 : jsTypeofIsObject newData with
          | false => simp [importCheck, h1, h2, h3]
          | true =>
              cases hscan : jsSomeTruthyNotes (jsValues newData) with
              | none => simp [importCheck, h1, h2, h3, hscan]
              | some b => cases b <;> simp [importCheck, h1, h2, h3, hscan]

/-- Claim C8: when the imported notepad's id already exists in the Library
(a truthy entry), the collision dialog is reached, and: keep-both writes a
new entry under the freshly generated id — the pre-existing entry unchanged,
the new entry carrying the new id with the imported notes verbatim —
replace overwrites the entry under the same id, and cancel leaves the
Library unchanged; exactly one of the three runs, as the `CollisionChoice`
argument. -/
theorem importCollision_resolutions (gen : String) (lib : List (String × JSVal))
    (np : JSVal) (oldId : String) (oldEntry : JSVal)
    (hid : jsGetField np "id" = .str oldId)
    (hdup : List.lookup oldId lib = some oldEntry)
    (htruthy : jsTruthy oldEntry = true)
    (hfresh : gen ≠ oldId) :
    importIsDuplicate lib np = true ∧
    (∀ choice, importWriteStep gen lib np choice = importResolve gen lib np choice) ∧
    List.lookup oldId (importResolve gen lib np .keepBoth) = some oldEntry ∧
    List.lookup gen (importResolve gen lib np .keepBoth) =
      some (jsSetField np "id" (.str gen)) ∧
    jsGetField (jsSetField np "id" (.str gen)) "id" = .str gen ∧
    jsGetField (jsSetField np "id" (.str gen)) "notes" = jsGetField np "notes" ∧
    List.lookup oldId (importResolve gen lib np .replace) = some np ∧
    importResolve gen lib np .cancel = lib := by
  have hdupb : importIsDuplicate lib np = true := by
    unfold importIsDuplicate
    rw [hid]
    show (match List.lookup oldId lib with
      | some v => jsTruthy v
      | none => false) = true
    rw [hdup]
    exact htruthy
  refine ⟨hdupb, fun choice => by unfold importWriteStep; rw [if_pos hdupb], ?_, ?_, ?_, ?_, ?_, rfl⟩
  · show List.lookup oldId (saveToDatabase lib (jsSetField np "id" (.str gen))) = some oldEntry
    unfold saveToDatabase bulkPutLib
    rw [jsGetField_setField_self]
    show List.lookup oldId (setInFields gen (jsSetField np "id" (.str gen)) lib) = some oldEntry
    rw [lookup_setInFields_ne _ _ _ _ (fun he => hfresh he.symm)]
    exact hdup
  · show List.lookup gen (saveToDatabase lib (jsSetField np "id" (.str gen))) =
      some (jsSetField np "id" (.str gen))
    unfold saveToDatabase bulkPutLib
    rw [jsGetField_setField_self]
    exact lookup_setInFields_self _ _ _
  · exact jsGetField_setField_self _ _ _
  · exact jsGetField_setField_ne _ _ _ _ (by decide)
  · show List.lookup oldId (saveToDatabase lib np) = some np
    unfold saveToDatabase bulkPutLib
    rw [hid]
    exact lookup_setInFields_self _ _ _

/-- Witness for claim C8 at a concrete one-entry Library and a colliding
import, with the fresh id "notepad-2". -/
theorem importCollision_resolutions_witness :
    jsGetField (JSVal.obj [("id", .str "a"), ("notes", .arr [.str "x"])]) "id" =
      JSVal.str "a" ∧
    List.lookup "a" [("a", JSVal.obj [("id", .str "a")])] =
      some (JSVal.obj [("id", .str "a")]) ∧
    jsTruthy (JSVal.obj [("id", .str "a")]) = true ∧
    ("notepad-2" : String) ≠ "a" ∧
    List.lookup "a" (importResolve "notepad-2" [("a", JSVal.obj [("id", .str "a")])]
        (.obj [("id", .str "a"), ("notes", .arr [.str "x"])]) .keepBoth) =
      some (JSVal.obj [("id", .str "a")]) ∧
    List.lookup "notepad-2" (importResolve "notepad-2" [("a", JSVal.obj [("id", .str "a")])]
        (.obj [("id", .str "a"), ("notes", .arr [.str "x"])]) .keepBoth) =
      some (jsSetField (.obj [("id", .str "a"), ("notes", .arr [.str "x"])]) "id"
        (.str "notepad-2")) ∧
    importResolve "notepad-2" [("a", JSVal.obj [("id", .str "a")])]
        (.obj [("id", .str "a"), ("notes", .arr [.str "x"])]) .cancel =
      [("a", JSVal.obj [("id", .str "a")])] := by
  have h := importCollision_resolutions "notepad-2" [("a", JSVal.obj [("id", .str "a")])]
    (.obj [("id", .str "a"), ("notes", .arr [.str "x"])]) "a" (JSVal.obj [("id", .str "a")])
    rfl rfl rfl (by decide)
  exact ⟨rfl, rfl, rfl, by decide, h.2.2.1, h.2.2.2.1, h.2.2.2.2.2.2.2⟩

theorem eraseIdx_last {α : Type} : ∀ l : List α, l.eraseIdx (l.length - 1) = l.dropLast
  | [] => rfl
  | [_] => rfl
  | a :: b :: t => by
      show (a :: b :: t).eraseIdx ((b :: t).length + 1 - 1) = a :: (b :: t).dropLast
      rw [show (b :: t).length + 1 - 1 = ((b :: t).length - 1) + 1 from by simp]
      show a :: (b :: t).eraseIdx ((b :: t).length - 1) = a :: (b :: t).dropLast
      rw [eraseIdx_last (b :: t)]

theorem get_last_eq_getLast {α : Type} (l : List α) (h : l ≠ [])
    (hlt : l.length - 1 < l.length) : l.get ⟨l.length - 1, hlt⟩ = l.getLast h := by
  simp [List.getLast_eq_getElem]

/-- Claim C6: a `MoveNote` whose 1-based target index lies outside
`[1, notes.length]` returns the state object unchanged — the notes keep
their order and `lastUpdate` is not restamped — regardless of the source
index. -/
theorem moveNote_target_out_of_bounds (state : Notepad) (ts : Nat) (oldIndex newIndex : Int)
    (h : newIndex < 1 ∨ (state.notes.length : Int) < newIndex) :
    notepadReducer state (.moveNote oldIndex newIndex) ts = state := by
  have hg : (newIndex - 1 < 0 ∨ ((state.notes.length : Int) ≤ newIndex - 1)) := by omega
  simp only [notepadReducer, if_pos hg]

/-- Witness for claim C6 at a one-note document and target index 3. -/
theorem moveNote_target_out_of_bounds_witness :
    ((3 : Int) < 1 ∨
      (((Notepad.mk "p" "t" 0 5 [⟨"a", "", "", "", none, false⟩]).notes.length : Int) < 3)) ∧
    notepadReducer ⟨"p", "t", 0, 5, [⟨"a", "", "", "", none, false⟩]⟩ (.moveNote 1 3) 9 =
      ⟨"p", "t", 0, 5, [⟨"a", "", "", "", none, false⟩]⟩ :=
  ⟨by decide,
   moveNote_target_out_of_bounds ⟨"p", "t", 0, 5, [⟨"a", "", "", "", none, false⟩]⟩ 9 1 3
     (by decide)⟩

/-- Claim C9: the reducer does not validate `MoveNote`'s source index — with
`oldIndex = 0` (internal index -1) and an in-range target, JavaScript's
negative-splice semantics remove the last note and reinsert it at the target
position, restamping `lastUpdate`; an out-of-range source is not a no-op. -/
theorem moveNote_source_underflow (state : Notepad) (ts : Nat) (newIndex : Int)
    (hne : state.notes ≠ []) (h1 : 1 ≤ newIndex)
    (h2 : newIndex ≤ (state.notes.length : Int)) :
    notepadReducer state (.moveNote 0 newIndex) ts =
      { state with
          lastUpdate := ts,
          notes := state.notes.dropLast.insertIdx (newIndex - 1).toNat
            (state.notes.getLast hne) } := by
  have hlen : 0 < state.notes.length := List.length_pos.mpr hne
  have hg : ¬((newIndex - 1 : Int) < 0 ∨ ((state.notes.length : Int) ≤ newIndex - 1)) := by
    omega
  simp only [notepadReducer, if_neg hg]
  have hstart : (if (0 : Int) - 1 < 0 then max ((state.notes.length : Int) + ((0 : Int) - 1)) 0
      else min ((0 : Int) - 1) ((state.notes.length : Int))).toNat = state.notes.length - 1 := by
    rw [if_pos (by omega)]
    omega
  rw [hstart, dif_pos (show state.notes.length - 1 < state.notes.length by omega)]
  rw [eraseIdx_last, get_last_eq_getLast state.notes hne]

/-- Witness for claim C9 at a two-note document: moving from source index 0
to target 1 moves the last note to the front and restamps. -/
theorem moveNote_source_underflow_witness :
    ([(⟨"a", "", "", "", none, false⟩ : Note), ⟨"b", "", "", "", none, false⟩] ≠
      ([] : List Note)) ∧
    notepadReducer
        ⟨"p", "t", 0, 5, [⟨"a", "", "", "", none, false⟩, ⟨"b", "", "", "", none, false⟩]⟩
        (.moveNote 0 1) 9 =
      ⟨"p", "t", 0, 9, [⟨"b", "", "", "", none, false⟩, ⟨"a", "", "", "", none, false⟩]⟩ :=
  ⟨by decide,
   moveNote_source_underflow
     ⟨"p", "t", 0, 5, [⟨"a", "", "", "", none, false⟩, ⟨"b", "", "", "", none, false⟩]⟩
     9 1 (by decide) (by decide) (by decide)⟩

theorem reducer_eq_of_not_restamps (state : Notepad) (a : NotepadAction) (t : Nat)
    (hset : a.isSetNotepad = false) (hr : restamps state a = false) :
    notepadReducer state a t = state := by
  cases a with
  | setNotepad p => cases hset
  | updateTitle s => cases hr
  | addNote n => cases hr
  | updateNote n => cases hr
  | deleteNote s => cases hr
  | duplicateNote oid nn =>
      cases hf : state.notes.findIdx? (fun n => n.id = oid) with
      | none => simp only [notepadReducer, hf]
      | some i =>
          rw [show restamps state (.duplicateNote oid nn) =
            (state.notes.findIdx? (fun n => n.id = oid)).isSome from rfl, hf] at hr
          cases hr
  | moveNote o n =>
      rw [show restamps state (.moveNote o n) =
        decide (¬(n - 1 < 0 ∨ (state.notes.length : Int) ≤ n - 1)) from rfl] at hr
      rw [decide_eq_false_iff_not, not_not] at hr
      simp only [notepadReducer, if_pos hr]

theorem reducer_lastUpdate_of_restamps (state : Notepad) (a : NotepadAction) (t : Nat)
    (hr : restamps state a = true) :
    (notepadReducer state a t).lastUpdate = t := by
  cases a with
  | setNotepad p => cases hr
  | updateTitle s => rfl
  | addNote n => rfl
  | updateNote n => rfl
  | deleteNote s => rfl
  | duplicateNote oid nn =>
      cases hf : state.notes.findIdx? (fun n => n.id = oid) with
      | none =>
          rw [show restamps state (.duplicateNote oid nn) =
            (state.notes.findIdx? (fun n => n.id = oid)).isSome from rfl, hf] at hr
          cases hr
      | some i => simp only [notepadReducer, hf]
  | moveNote o n =>
      rw [show restamps state (.moveNote o n) =
        decide (¬(n - 1 < 0 ∨ (state.notes.length : Int) ≤ n - 1)) from rfl,
        decide_eq_true_eq] at hr
      simp only [notepadReducer, if_neg hr]
      split <;> split <;> rfl

theorem applyActions_lastUpdate :
    ∀ (cmds : List (NotepadAction × Nat)) (state : Notepad),
      (∀ p ∈ cmds, p.1.isSetNotepad = false) →
      (applyActions state cmds).lastUpdate = lastStampTime state state.lastUpdate cmds
  | [], _, _ => rfl
  | (a, t) :: rest, state, h => by
      have ha : a.isSetNotepad = false := h (a, t) (by simp)
      have hrest : ∀ p ∈ rest, p.1.isSetNotepad = false := fun p hp => h p (by simp [hp])
      show (applyActions (notepadReducer state a t) rest).lastUpdate =
        lastStampTime (notepadReducer state a t)
          (if restamps state a then t else state.lastUpdate) rest
      rw [applyActions_lastUpdate rest (notepadReducer state a t) hrest]
      congr 1
      cases hr : restamps state a with
      | true =>
          rw [if_pos rfl]
          exact reducer_lastUpdate_of_restamps state a t hr
      | false =>
          rw [if_neg (by simp)]
          rw [reducer_eq_of_not_restamps state a t ha hr]

theorem nondecreasing_lower (a b : Nat) (l : List Nat) (hab : a ≤ b)
    (h : nondecreasing (b :: l) = true) : nondecreasing (a :: l) = true := by
  cases l with
  | nil => rfl
  | cons c rest =>
      simp only [nondecreasing, Bool.and_eq_true, decide_eq_true_eq] at h ⊢
      exact ⟨le_trans hab h.1, h.2⟩

theorem trace_nondecreasing :
    ∀ (cmds : List (NotepadAction × Nat)) (state : Notepad),
      (∀ p ∈ cmds, p.1.isSetNotepad = false) →
      nondecreasing (state.lastUpdate :: cmds.map Prod.snd) = true →
      nondecreasing ((state :: reducerTrace state cmds).map Notepad.lastUpdate) = true
  | [], _, _, _ => rfl
  | (a, t) :: rest, state, h, hmono => by
      have ha : a.isSetNotepad = false := h (a, t) (by simp)
      have hrest : ∀ p ∈ rest, p.1.isSetNotepad = false := fun p hp => h p (by simp [hp])
      have hst : state.lastUpdate ≤ t := by
        revert hmono
        simp only [List.map_cons, nondecreasing, Bool.and_eq_true, decide_eq_true_eq]
        exact fun hm => hm.1
      have hmono2 : nondecreasing (t :: rest.map Prod.snd) = true := by
        revert hmono
        simp only [List.map_cons, nondecreasing, Bool.and_eq_true, decide_eq_true_eq]
        exact fun hm => hm.2
      have hlu : (notepadReducer state a t).lastUpdate = t ∨
          notepadReducer state a t = state := by
        cases hr : restamps state a with
        | true => exact Or.inl (reducer_lastUpdate_of_restamps state a t hr)
        | false => exact Or.inr (reducer_eq_of_not_restamps state a t ha hr)
      have hacc : nondecreasing ((notepadReducer state a t).lastUpdate ::
          rest.map Prod.snd) = true := by
        rcases hlu with h' | h'
        · rw [h']; exact hmono2
        · rw [h']; exact nondecreasing_lower _ _ _ hst hmono2
      have hle : state.lastUpdate ≤ (notepadReducer state a t).lastUpdate := by
        rcases hlu with h' | h'
        · rw [h']; exact hst
        · rw [h']
      have hrec := trace_nondecreasing rest (notepadReducer state a t) hrest hacc
      show nondecreasing (state.lastUpdate :: (notepadReducer state a t).lastUpdate ::
        (reducerTrace (notepadReducer state a t) rest).map Notepad.lastUpdate) = true
      simp only [nondecreasing, Bool.and_eq_true, decide_eq_true_eq]
      refine ⟨hle, ?_⟩
      simpa using hrec

/-- Counterexample to claim C5 as stated: starting from `lastUpdate = 0`,
running UpdateTitle at time 5 and then SetDocument with a payload carrying
`lastUpdate = 3` leaves the document at 3 — `lastUpdate` decreased along the
run and does not equal 5, the timestamp of the last non-SetDocument command;
moreover a MoveNote with an out-of-bounds target dispatched at time 7 is a
non-SetDocument transition that does not stamp `lastUpdate` with the current
time. -/
theorem reducer_lastUpdate_counterexample :
    (applyActions ⟨"p", "t", 0, 0, []⟩
        [(.updateTitle "x", 5), (.setNotepad ⟨"q", "u", 0, 3, []⟩, 6)]).lastUpdate = 3 ∧
    (3 : Nat) ≠ 5 ∧
    nondecreasing ((⟨"p", "t", 0, 0, []⟩ ::
        reducerTrace ⟨"p", "t", 0, 0, []⟩
          [(.updateTitle "x", 5), (.setNotepad ⟨"q", "u", 0, 3, []⟩, 6)]).map
        Notepad.lastUpdate) = false ∧
    (notepadReducer ⟨"p", "t", 0, 5, []⟩ (.moveNote 1 1) 7).lastUpdate = 5 ∧
    (5 : Nat) ≠ 7 :=
  ⟨rfl, by decide, rfl, rfl, by decide⟩

/-- Claim C5 (amended): every state-changing transition other than
SetDocument stamps `lastUpdate` with the dispatch time, while SetDocument
replaces the document verbatim and the no-op transitions (DuplicateNote
with an unknown original, MoveNote with an out-of-bounds target) leave the
state object — `lastUpdate` included — unchanged; hence over any command
sequence free of SetDocument whose dispatch times are non-decreasing and
start no earlier than the initial `lastUpdate`, the `lastUpdate` values
along the run are non-decreasing and the final `lastUpdate` equals the
dispatch time of the last state-changing command (the initial `lastUpdate`
when every command was a no-op). -/
theorem reducer_lastUpdate_amended (init : Notepad) (cmds : List (NotepadAction × Nat))
    (hset : ∀ p ∈ cmds, p.1.isSetNotepad = false)
    (hmono : nondecreasing (init.lastUpdate :: cmds.map Prod.snd) = true) :
    nondecreasing ((init :: reducerTrace init cmds).map Notepad.lastUpdate) = true ∧
    (applyActions init cmds).lastUpdate = lastStampTime init init.lastUpdate cmds :=
  ⟨trace_nondecreasing cmds init hset hmono, applyActions_lastUpdate cmds init hset⟩

/-- Witness for claim C5's amended theorem on a run containing an effectful
AddNote, a no-op MoveNote and an effectful UpdateTitle. -/
theorem reducer_lastUpdate_amended_witness :
    (∀ p ∈ [((NotepadAction.addNote ⟨"a", "", "", "", none, false⟩), 2),
        (NotepadAction.moveNote 5 9, 3), (NotepadAction.updateTitle "z", 4)],
      p.1.isSetNotepad = false) ∧
    nondecreasing ((⟨"p", "t", 0, 1, []⟩ : Notepad).lastUpdate ::
      [((NotepadAction.addNote ⟨"a", "", "", "", none, false⟩), 2),
        (NotepadAction.moveNote 5 9, 3),
        (NotepadAction.updateTitle "z", 4)].map Prod.snd) = true ∧
    (nondecreasing (((⟨"p", "t", 0, 1, []⟩ : Notepad) ::
        reducerTrace ⟨"p", "t", 0, 1, []⟩
          [((NotepadAction.addNote ⟨"a", "", "", "", none, false⟩), 2),
            (NotepadAction.moveNote 5 9, 3), (NotepadAction.updateTitle "z", 4)]).map
        Notepad.lastUpdate) = true ∧
      (applyActions ⟨"p", "t", 0, 1, []⟩
          [((NotepadAction.addNote ⟨"a", "", "", "", none, false⟩), 2),
            (NotepadAction.moveNote 5 9, 3),
            (NotepadAction.updateTitle "z", 4)]).lastUpdate =
        lastStampTime ⟨"p", "t", 0, 1, []⟩
          (⟨"p", "t", 0, 1, []⟩ : Notepad).lastUpdate
          [((NotepadAction.addNote ⟨"a", "", "", "", none, false⟩), 2),
            (NotepadAction.moveNote 5 9, 3), (NotepadAction.updateTitle "z", 4)]) :=
  ⟨by decide, by decide,
   reducer_lastUpdate_amended ⟨"p", "t", 0, 1, []⟩ _ (by decide) (by decide)⟩
